import Mathlib

/-!
Verification of the content-collection contract of a personal developer blog
(repository `Nishu1103/Nishu1103.github.io`).

The repository ships four source files: `src/consts.ts` (seven site-wide
string constants) and three markdown documents under `src/content/blog/`,
each carrying a YAML front-matter block.  The content-collection machinery
itself (loader, schema validation, slug derivation, `listAllPosts`,
`getPostBySlug`, the site-configuration store) is supplied by the static-site
framework and is not present under `src/`; those operations are modelled here
from the specification, while the constants and the three documents'
front-matter are embedded directly from the source files.
-/

namespace Blog

/-- A calendar date (date-only, no time zone), as required by the spec's
`pubDate: calendar date` field. -/
structure Date where
  year : Nat
  month : Nat
  day : Nat
deriving DecidableEq, Repr

/-- A front-matter value: either a scalar (string / unquoted scalar such as a
date literal) or a sequence of values.  This is the shape the three blog
documents actually use. -/
inductive FMVal where
  | str (s : String)
  | list (vs : List FMVal)

/-- An input document: source filename (relative to the collection root), the
parsed front-matter block as key/value pairs in file order, and the raw
markdown body. -/
structure Document where
  path : String
  fm : List (String × FMVal)
  body : String

/-- A validated blog post, per the spec's BlogPost data model. -/
structure BlogPost where
  slug : String
  title : String
  description : String
  pubDate : Date
  heroImage : Option String
  tags : List String
  body : String
deriving DecidableEq, Repr

/-- Modelled from the spec: load-time errors of the Content Collection
Loader.  `SchemaValidationError` names the offending file path and field;
`DuplicateSlugError` reports both colliding file paths. -/
inductive LoadError where
  | schema (doc : String) (fld : String)
  | dupSlug (path1 : String) (path2 : String)
deriving DecidableEq, Repr

/-- Modelled from the spec: `NotFoundError` — requested slug has no
corresponding BlogPost; raised only by `getPostBySlug`. -/
inductive NotFoundError where
  | notFound (slug : String)
deriving DecidableEq, Repr

/-- Gregorian leap-year test. -/
def leapYear (y : Nat) : Bool :=
  decide (y % 4 = 0 ∧ (y % 100 ≠ 0 ∨ y % 400 = 0))

/-- Days in a month of the Gregorian calendar. -/
def daysInMonth (y m : Nat) : Nat :=
  if m = 2 then (if leapYear y then 29 else 28)
  else if m = 4 ∨ m = 6 ∨ m = 9 ∨ m = 11 then 30
  else 31

/-- A valid calendar date, as the spec requires of `pubDate`. -/
def validDate (y m d : Nat) : Bool :=
  decide (1 ≤ m ∧ m ≤ 12 ∧ 1 ≤ d ∧ d ≤ daysInMonth y m)

/-- Numeric value of a decimal digit character, if it is one. -/
def digitVal? (c : Char) : Option Nat :=
  if '0' ≤ c ∧ c ≤ '9' then some (c.toNat - '0'.toNat) else none

/-- Accumulating decimal parser over a character list; fails on the first
non-digit. -/
def digitsToNatAux : List Char → Nat → Option Nat
  | [], acc => some acc
  | c :: cs, acc =>
    match digitVal? c with
    | some v => digitsToNatAux cs (acc * 10 + v)
    | none => none

/-- Parse a non-empty all-digit character list as a decimal number. -/
def digitsToNat? : List Char → Option Nat
  | [] => none
  | c :: cs => digitsToNatAux (c :: cs) 0

/-- Split a character list on the dash character; `n` dashes produce `n + 1`
groups (empty groups allowed, so stray dashes are detected downstream by the
digit parser). -/
def splitDashes : List Char → List (List Char)
  | [] => [[]]
  | c :: cs =>
    let r := splitDashes cs
    if c = '-' then [] :: r
    else
      match r with
      | [] => [[c]]
      | g :: gs => (c :: g) :: gs

/-- Modelled from the spec: parse a front-matter scalar as an ISO
`YYYY-MM-DD` calendar date; `none` when it is not parseable as a valid
calendar date (e.g. "not-a-date"). -/
def parseDate (s : String) : Option Date :=
  match splitDashes s.data with
  | [ycs, mcs, dcs] =>
    match digitsToNat? ycs, digitsToNat? mcs, digitsToNat? dcs with
    | some y, some m, some d =>
      if validDate y m d then some ⟨y, m, d⟩ else none
    | _, _, _ => none
  | _ => none

/-- Characters strictly before the last dot, or `none` when no dot occurs. -/
def stripExtAux : List Char → Option (List Char)
  | [] => none
  | c :: cs =>
    match stripExtAux cs with
    | some r => some (c :: r)
    | none => if c = '.' then some [] else none

/-- Strip the filename extension (everything from the last dot on); a name
without a dot is kept whole. -/
def stripExt (cs : List Char) : List Char :=
  (stripExtAux cs).getD cs

/-- Modelled from the spec: the derived slug — the source filename
lowercased, extension stripped, path separators preserved. -/
def slugOf (path : String) : String :=
  ⟨(stripExt path.data).map Char.toLower⟩

/-- First front-matter value bound to a key, in file order. -/
def fmLookup : List (String × FMVal) → String → Option FMVal
  | [], _ => none
  | kv :: rest, k => if kv.1 = k then some kv.2 else fmLookup rest k

/-- Extract a string from every element of a front-matter sequence; fails on
a non-string element. -/
def asStrList : List FMVal → Option (List String)
  | [] => some []
  | .str s :: vs => (asStrList vs).map (fun ts => s :: ts)
  | .list _ :: _ => none

/-- Modelled from the spec: the optional-`tags` tail of per-document
validation — `tags` defaults to the empty sequence when absent, and every
element must be a string. -/
def tagsPart (d : Document) (t ds : String) (pd : Date) (h : Option String) :
    Except LoadError BlogPost :=
  match fmLookup d.fm "tags" with
  | none => .ok ⟨slugOf d.path, t, ds, pd, h, [], d.body⟩
  | some (.list vs) =>
    match asStrList vs with
    | some ts => .ok ⟨slugOf d.path, t, ds, pd, h, ts, d.body⟩
    | none => .error (.schema d.path "tags")
  | some (.str _) => .error (.schema d.path "tags")

/-- Modelled from the spec: per-document schema validation of the Content
Collection Loader — `title: string` required, `description: string`
required, `pubDate: date` required and parseable, `heroImage: string`
optional, `tags: sequence of string` optional defaulting to the empty
sequence; the error names the document and the offending field. -/
def validateDoc (d : Document) : Except LoadError BlogPost :=
  match fmLookup d.fm "title" with
  | some (.str t) =>
    match fmLookup d.fm "description" with
    | some (.str ds) =>
      match fmLookup d.fm "pubDate" with
      | some (.str ps) =>
        match parseDate ps with
        | some pd =>
          match fmLookup d.fm "heroImage" with
          | none => tagsPart d t ds pd none
          | some (.str h) => tagsPart d t ds pd (some h)
          | some (.list _) => .error (.schema d.path "heroImage")
        | none => .error (.schema d.path "pubDate")
      | _ => .error (.schema d.path "pubDate")
    | _ => .error (.schema d.path "description")
  | _ => .error (.schema d.path "title")

/-- Whether an `Except` carries a success value. -/
def exceptOk {ε α : Type} : Except ε α → Bool
  | .ok _ => true
  | .error _ => false

/-- The `title` field is present and a string. -/
def titleOK (d : Document) : Bool :=
  match fmLookup d.fm "title" with
  | some (.str _) => true
  | _ => false

/-- The `description` field is present and a string. -/
def descOK (d : Document) : Bool :=
  match fmLookup d.fm "description" with
  | some (.str _) => true
  | _ => false

/-- The `pubDate` field is present, a scalar, and parses as a valid
calendar date. -/
def dateFieldOK (d : Document) : Bool :=
  match fmLookup d.fm "pubDate" with
  | some (.str s) => (parseDate s).isSome
  | _ => false

/-- The optional `heroImage` field is absent or a string. -/
def heroOK (d : Document) : Bool :=
  match fmLookup d.fm "heroImage" with
  | none => true
  | some (.str _) => true
  | some (.list _) => false

/-- The optional `tags` field is absent or a sequence of strings. -/
def tagsOK (d : Document) : Bool :=
  match fmLookup d.fm "tags" with
  | none => true
  | some (.list vs) => (asStrList vs).isSome
  | some (.str _) => false

/-- All front-matter fields of a document satisfy the declared schema. -/
def schemaOK (d : Document) : Bool :=
  titleOK d && descOK d && dateFieldOK d && heroOK d && tagsOK d

/-- The named field really is offending in the given document: it is one of
the five schema fields and its field-level check fails. -/
def fieldBad (d : Document) (f : String) : Bool :=
  (f == "title" && !titleOK d) || (f == "description" && !descOK d) ||
  (f == "pubDate" && !dateFieldOK d) || (f == "heroImage" && !heroOK d) ||
  (f == "tags" && !tagsOK d)

/-- First recorded path in `seen` whose slug equals `s`. -/
def lookupSlug : List (String × String) → String → Option String
  | [], _ => none
  | sp :: rest, s => if sp.1 = s then some sp.2 else lookupSlug rest s

/-- Modelled from the spec: scan the documents for two that resolve to the
same derived slug, threading the `(slug, path)` pairs already seen; returns
the first colliding pair of file paths. -/
def findDup (seen : List (String × String)) : List Document → Option (String × String)
  | [] => none
  | d :: ds =>
    match lookupSlug seen (slugOf d.path) with
    | some p => some (p, d.path)
    | none => findDup ((slugOf d.path, d.path) :: seen) ds

/-- Modelled from the spec: the Content Collection Loader — fails with
`DuplicateSlugError` (both file paths) when two documents collide on derived
slug, fails with `SchemaValidationError` on the first document violating the
schema, and otherwise returns every document's validated BlogPost.  The spec
fixes no order between the two failure classes; the slug check depends only
on filenames and is performed first. -/
def loadDocs (docs : List Document) : Except LoadError (List BlogPost) :=
  match findDup [] docs with
  | some pq => .error (.dupSlug pq.1 pq.2)
  | none => docs.mapM validateDoc

/-- Date comparison: `dateLE a b` iff `a` is on or before `b`
(year, month, day lexicographically). -/
def dateLE (a b : Date) : Bool :=
  decide (a.year < b.year ∨ (a.year = b.year ∧
    (a.month < b.month ∨ (a.month = b.month ∧ a.day ≤ b.day))))

/-- Insert a post into a descending-by-`pubDate` list, in front of the first
entry whose date is on or before its own (so an entry already in the list
wins ties against the inserted one only if it was earlier in the input). -/
def insertPost (p : BlogPost) : List BlogPost → List BlogPost
  | [] => [p]
  | q :: qs =>
    if dateLE q.pubDate p.pubDate then p :: q :: qs else q :: insertPost p qs

/-- Modelled from the spec: the Listing / Sort Utility — the posts sorted by
`pubDate` descending (most recent first), preserving the input's relative
order on equal dates (stable). -/
def listAllPosts (posts : List BlogPost) : List BlogPost :=
  posts.foldr insertPost []

/-- Modelled from the spec: read-time lookup used by page routing — the
entry whose derived slug equals the requested one, or `NotFoundError`. -/
def getPostBySlug (posts : List BlogPost) (s : String) : Except NotFoundError BlogPost :=
  match posts with
  | [] => .error (.notFound s)
  | p :: ps => if p.slug = s then .ok p else getPostBySlug ps s

/-- Modelled from the spec: `ConfigValidationError` — a required SiteConfig
field is empty or malformed at startup; names the offending field. -/
inductive ConfigError where
  | config (fld : String)
deriving DecidableEq, Repr

/-- The Site Configuration Store: seven read-only string constants. -/
structure SiteConfig where
  title : String
  description : String
  url : String
  author : String
  email : String
  githubUrl : String
  linkedinUrl : String
deriving DecidableEq, Repr

/-- Remainder of `s` after stripping the literal scheme `p` from its front;
`none` when `s` does not start with `p`. -/
def afterScheme? : List Char → List Char → Option (List Char)
  | [], s => some s
  | _ :: _, [] => none
  | p :: ps, c :: cs => if p = c then afterScheme? ps cs else none

/-- Modelled from the spec: a well-formed absolute URL — an `http://` or
`https://` scheme followed by a non-empty remainder. -/
def isAbsoluteUrl (s : String) : Bool :=
  match afterScheme? "https://".data s.data with
  | some rest => !rest.isEmpty
  | none =>
    match afterScheme? "http://".data s.data with
    | some rest => !rest.isEmpty
    | none => false

/-- Modelled from the spec: construct the Site Configuration Store,
validating at startup that every field is non-empty and that `url`,
`githubUrl` and `linkedinUrl` are well-formed absolute URLs; fails with
`ConfigValidationError` naming the first offending field. -/
def mkSiteConfig (t d u a e g l : String) : Except ConfigError SiteConfig :=
  if t.isEmpty then .error (.config "title")
  else if d.isEmpty then .error (.config "description")
  else if !isAbsoluteUrl u then .error (.config "url")
  else if a.isEmpty then .error (.config "author")
  else if e.isEmpty then .error (.config "email")
  else if !isAbsoluteUrl g then .error (.config "githubUrl")
  else if !isAbsoluteUrl l then .error (.config "linkedinUrl")
  else .ok ⟨t, d, u, a, e, g, l⟩

/-- Build-level error: configuration validation or content loading. -/
inductive BuildError where
  | config (fld : String)
  | load (e : LoadError)
deriving DecidableEq, Repr

/-- A fully built site: the validated configuration and post set. -/
structure Site where
  config : SiteConfig
  posts : List BlogPost

/-- Modelled from the spec: the build — the Site Configuration Store is
constructed and validated at startup, before any post is loaded; any
validation failure aborts the whole build with no partial output. -/
def buildSite (t d u a e g l : String) (docs : List Document) :
    Except BuildError Site :=
  match mkSiteConfig t d u a e g l with
  | .error ce => .error (.config ce.1)
  | .ok cfg =>
    match loadDocs docs with
    | .error le => .error (.load le)
    | .ok posts => .ok ⟨cfg, posts⟩

/-! ## The repository's source data

`src/consts.ts` constants, embedded verbatim. -/

def SITE_TITLE : String := "Nishant Kumawat - Developer Blog"

def SITE_DESCRIPTION : String :=
  "A blog about web development, programming insights, and tech experiences by Nishant Kumawat"

def SITE_URL : String := "https://nishantkumawat.me"

def SITE_AUTHOR : String := "Nishant Kumawat"

def SITE_EMAIL : String := "nishant@example.com"

def SITE_GITHUB : String := "https://github.com/Nishu1103"

def SITE_LINKEDIN : String := "https://linkedin.com/in/nishant-kumawat"

/-- The SiteConfig singleton built from the repository's constants. -/
def siteConfig : SiteConfig :=
  ⟨SITE_TITLE, SITE_DESCRIPTION, SITE_URL, SITE_AUTHOR, SITE_EMAIL,
   SITE_GITHUB, SITE_LINKEDIN⟩

/-! The three blog documents' front-matter, embedded from
`src/content/blog/`.  In `getting-started-astro.md` and
`typescript-best-practices.md` the `heroImage` line is commented out in the
YAML, so the field is absent.  The markdown bodies are abbreviated to the
empty string: no claim inspects the body, and the loader passes it through
unmodified. -/

/-- `src/content/blog/getting-started-astro.md`, front-matter lines 1–7. -/
def gettingStartedDoc : Document :=
  { path := "getting-started-astro.md"
    fm := [("title", .str "Getting Started with Astro: My First Experience"),
           ("description", .str "Sharing my journey of building a blog with Astro and TypeScript, and why I chose this modern framework."),
           ("pubDate", .str "2024-01-15"),
           ("tags", .list [.str "astro", .str "typescript", .str "web-development", .str "blog"])]
    body := "" }

/-- `src/content/blog/modern-web-applications.md`, front-matter lines 1–7. -/
def modernWebDoc : Document :=
  { path := "modern-web-applications.md"
    fm := [("title", .str "Building Modern Web Applications: Lessons Learned"),
           ("description", .str "Key insights from building scalable web applications with modern frameworks and best practices."),
           ("pubDate", .str "2024-01-10"),
           ("heroImage", .str "/blog-placeholder-2.jpg"),
           ("tags", .list [.str "web-development", .str "architecture", .str "best-practices", .str "scalability"])]
    body := "" }

/-- `src/content/blog/typescript-best-practices.md`, front-matter lines 1–7. -/
def typescriptDoc : Document :=
  { path := "typescript-best-practices.md"
    fm := [("title", .str "TypeScript Best Practices for Better Code Quality"),
           ("description", .str "Essential TypeScript patterns and practices that will improve your code quality and developer experience."),
           ("pubDate", .str "2024-01-05"),
           ("tags", .list [.str "typescript", .str "javascript", .str "best-practices", .str "code-quality"])]
    body := "" }

/-- The repository's content collection, in directory (alphabetical) order. -/
def repoDocs : List Document :=
  [gettingStartedDoc, modernWebDoc, typescriptDoc]

/-- The validated BlogPost of `getting-started-astro.md`. -/
def gettingStartedPost : BlogPost :=
  { slug := "getting-started-astro"
    title := "Getting Started with Astro: My First Experience"
    description := "Sharing my journey of building a blog with Astro and TypeScript, and why I chose this modern framework."
    pubDate := ⟨2024, 1, 15⟩
    heroImage := none
    tags := ["astro", "typescript", "web-development", "blog"]
    body := "" }

/-- The validated BlogPost of `modern-web-applications.md`. -/
def modernWebPost : BlogPost :=
  { slug := "modern-web-applications"
    title := "Building Modern Web Applications: Lessons Learned"
    description := "Key insights from building scalable web applications with modern frameworks and best practices."
    pubDate := ⟨2024, 1, 10⟩
    heroImage := some "/blog-placeholder-2.jpg"
    tags := ["web-development", "architecture", "best-practices", "scalability"]
    body := "" }

/-- The validated BlogPost of `typescript-best-practices.md`. -/
def typescriptPost : BlogPost :=
  { slug := "typescript-best-practices"
    title := "TypeScript Best Practices for Better Code Quality"
    description := "Essential TypeScript patterns and practices that will improve your code quality and developer experience."
    pubDate := ⟨2024, 1, 5⟩
    heroImage := none
    tags := ["typescript", "javascript", "best-practices", "code-quality"]
    body := "" }

/-- The repository's validated post set, in loader order. -/
def repoPosts : List BlogPost :=
  [gettingStartedPost, modernWebPost, typescriptPost]

/-- Spec's test fixture: a document whose front-matter omits `title`. -/
def docMissingTitle : Document :=
  { path := "missing-title.md"
    fm := [("description", .str "a post without a title"),
           ("pubDate", .str "2024-02-01")]
    body := "" }

/-- Spec's test fixture: a document whose `pubDate` is not parseable. -/
def docBadDate : Document :=
  { path := "bad-date.md"
    fm := [("title", .str "Bad Date"),
           ("description", .str "a post with an unparseable date"),
           ("pubDate", .str "not-a-date")]
    body := "" }

/-- Spec's test fixture: a well-formed document whose front-matter omits
`tags`. -/
def docNoTags : Document :=
  { path := "no-tags.md"
    fm := [("title", .str "No Tags"),
           ("description", .str "a post without tags"),
           ("pubDate", .str "2024-03-01")]
    body := "" }

/-- Spec's test fixture: `My-Post.md`, colliding with `my-post.md`. -/
def myPostDocA : Document :=
  { path := "My-Post.md"
    fm := [("title", .str "My Post"),
           ("description", .str "first of two colliding documents"),
           ("pubDate", .str "2024-04-01")]
    body := "" }

/-- Spec's test fixture: `my-post.md`, colliding with `My-Post.md`. -/
def myPostDocB : Document :=
  { path := "my-post.md"
    fm := [("title", .str "My Post Again"),
           ("description", .str "second of two colliding documents"),
           ("pubDate", .str "2024-04-02")]
    body := "" }

/-! ## Order lemmas for `dateLE` -/

theorem dateLE_refl (d : Date) : dateLE d d = true := by
  simp [dateLE]

theorem dateLE_total (a b : Date) (h : dateLE a b = false) : dateLE b a = true := by
  simp only [dateLE, decide_eq_false_iff_not, decide_eq_true_eq] at *
  omega

theorem dateLE_trans (a b c : Date) (h1 : dateLE a b = true) (h2 : dateLE b c = true) :
    dateLE a c = true := by
  simp only [dateLE, decide_eq_true_eq] at *
  omega

theorem dateLE_antisymm (a b : Date) (h1 : dateLE a b = true) (h2 : dateLE b a = true) :
    a = b := by
  simp only [dateLE, decide_eq_true_eq] at h1 h2
  obtain ⟨y1, m1, d1⟩ := a
  obtain ⟨y2, m2, d2⟩ := b
  simp only [Date.mk.injEq]
  simp only at h1 h2
  omega

/-! ## Sorting lemmas for `insertPost` / `listAllPosts` -/

theorem insertPost_perm (p : BlogPost) (l : List BlogPost) :
    (insertPost p l).Perm (p :: l) := by
  induction l with
  | nil => exact List.Perm.refl _
  | cons q qs ih =>
    simp only [insertPost]
    split
    · exact List.Perm.refl _
    · exact (ih.cons q).trans (List.Perm.swap p q qs)

theorem listAllPosts_perm (l : List BlogPost) : (listAllPosts l).Perm l := by
  induction l with
  | nil => exact List.Perm.refl _
  | cons p ps ih =>
    exact (insertPost_perm p (listAllPosts ps)).trans (ih.cons p)

theorem insertPost_pairwise (p : BlogPost) (l : List BlogPost)
    (h : l.Pairwise (fun a b => dateLE b.pubDate a.pubDate = true)) :
    (insertPost p l).Pairwise (fun a b => dateLE b.pubDate a.pubDate = true) := by
  induction l with
  | nil => simp [insertPost]
  | cons q qs ih =>
    rcases List.pairwise_cons.1 h with ⟨hq, hqs⟩
    simp only [insertPost]
    split
    · rename_i hle
      refine List.pairwise_cons.2 ⟨?_, h⟩
      intro x hx
      cases hx with
      | head => exact hle
      | tail _ hx => exact dateLE_trans _ _ _ (hq x hx) hle
    · rename_i hle
      refine List.pairwise_cons.2 ⟨?_, ih hqs⟩
      intro x hx
      rcases List.mem_cons.1 ((insertPost_perm p qs).mem_iff.1 hx) with hx1 | hx2
      · subst hx1
        exact dateLE_total _ _ (by simpa using hle)
      · exact hq x hx2

theorem listAllPosts_sorted (l : List BlogPost) :
    (listAllPosts l).Pairwise (fun a b => dateLE b.pubDate a.pubDate = true) := by
  induction l with
  | nil => simp [listAllPosts]
  | cons p ps ih => exact insertPost_pairwise p _ ih

theorem insertPost_filter_date (k : Date) (p : BlogPost) (l : List BlogPost) :
    (insertPost p l).filter (fun q => decide (q.pubDate = k)) =
      if p.pubDate = k then p :: l.filter (fun q => decide (q.pubDate = k))
      else l.filter (fun q => decide (q.pubDate = k)) := by
  induction l with
  | nil =>
    by_cases hp : p.pubDate = k <;> simp [insertPost, List.filter_cons, hp]
  | cons q qs ih =>
    simp only [insertPost]
    split
    · by_cases hp : p.pubDate = k <;> simp [List.filter_cons, hp]
    · rename_i hle
      have hle' : dateLE q.pubDate p.pubDate = false := by simpa using hle
      by_cases hp : p.pubDate = k
      · have hq : ¬ q.pubDate = k := by
          intro hqk
          rw [hqk, ← hp] at hle'
          rw [dateLE_refl] at hle'
          exact Bool.noConfusion hle'
        simp [List.filter_cons, hq, hp, ih]
      · by_cases hq : q.pubDate = k <;> simp [List.filter_cons, hp, hq, ih]

theorem listAllPosts_filter_date (k : Date) (l : List BlogPost) :
    (listAllPosts l).filter (fun q => decide (q.pubDate = k)) =
      l.filter (fun q => decide (q.pubDate = k)) := by
  induction l with
  | nil => rfl
  | cons p ps ih =>
    rw [show listAllPosts (p :: ps) = insertPost p (listAllPosts ps) from rfl,
      insertPost_filter_date]
    by_cases hp : p.pubDate = k <;> simp [List.filter_cons, hp, ih]

/-- C1: `listAllPosts` returns a sequence of the entries (a permutation of
the input) that is non-increasing in `pubDate` (descending, most recent
first), and for entries with equal `pubDate` the loader's original relative
order is preserved: the sublist of entries carrying any fixed `pubDate` is
exactly the input's sublist with that date, in the input's order (stable
tie-break). -/
theorem listAllPosts_sorted_stable (posts : List BlogPost) :
    (listAllPosts posts).Pairwise (fun a b => dateLE b.pubDate a.pubDate = true) ∧
    (listAllPosts posts).Perm posts ∧
    ∀ k : Date, (listAllPosts posts).filter (fun q => decide (q.pubDate = k)) =
      posts.filter (fun q => decide (q.pubDate = k)) :=
  ⟨listAllPosts_sorted posts, listAllPosts_perm posts,
   fun k => listAllPosts_filter_date k posts⟩

/-- C5: for the repository's three blog documents, dated 2024-01-15
(getting-started-astro), 2024-01-10 (modern-web-applications) and
2024-01-05 (typescript-best-practices), `listAllPosts` returns them in the
order [2024-01-15, 2024-01-10, 2024-01-05]: getting-started-astro, then
modern-web-applications, then typescript-best-practices. -/
theorem repo_listing_order :
    listAllPosts repoPosts = [gettingStartedPost, modernWebPost, typescriptPost] ∧
    gettingStartedPost.pubDate = ⟨2024, 1, 15⟩ ∧
    modernWebPost.pubDate = ⟨2024, 1, 10⟩ ∧
    typescriptPost.pubDate = ⟨2024, 1, 5⟩ :=
  ⟨rfl, rfl, rfl, rfl⟩

/-! ## Determinism of the listing order on collections with distinct dates -/

theorem listAllPosts_strict_sorted (l : List BlogPost)
    (hnd : (l.map BlogPost.pubDate).Nodup) :
    (listAllPosts l).Pairwise (fun a b => dateLE a.pubDate b.pubDate = false) := by
  have hnd' : ((listAllPosts l).map BlogPost.pubDate).Nodup :=
    (((listAllPosts_perm l).map BlogPost.pubDate).nodup_iff).2 hnd
  have hne : (listAllPosts l).Pairwise (fun a b => a.pubDate ≠ b.pubDate) :=
    List.pairwise_map.1 hnd'
  refine ((listAllPosts_sorted l).and hne).imp ?_
  intro a b hab
  obtain ⟨h1, h2⟩ := hab
  cases hle : dateLE a.pubDate b.pubDate with
  | false => rfl
  | true => exact absurd (dateLE_antisymm _ _ hle h1) h2

theorem listAllPosts_perm_eq (l₁ l₂ : List BlogPost) (hperm : l₁.Perm l₂)
    (hnd : (l₂.map BlogPost.pubDate).Nodup) :
    listAllPosts l₁ = listAllPosts l₂ := by
  haveI : IsAntisymm BlogPost (fun a b => dateLE a.pubDate b.pubDate = false) :=
    ⟨fun a b hab hba => absurd (dateLE_total _ _ hab) (by simp [hba])⟩
  have h1 : (l₁.map BlogPost.pubDate).Nodup := ((hperm.map _).nodup_iff).2 hnd
  exact List.eq_of_perm_of_sorted
    (((listAllPosts_perm l₁).trans hperm).trans (listAllPosts_perm l₂).symm)
    (listAllPosts_strict_sorted l₁ h1)
    (listAllPosts_strict_sorted l₂ hnd)

/-- C10: the three repository posts' pubDates (2024-01-15, 2024-01-05,
2024-01-10) are pairwise distinct, so `listAllPosts` produces the same
sequence for any enumeration order of this collection — the tie-break never
applies and the listing is fully determined by the dates alone. -/
theorem repo_order_enumeration_independent :
    (repoPosts.map BlogPost.pubDate).Nodup ∧
    ∀ l : List BlogPost, l.Perm repoPosts → listAllPosts l = listAllPosts repoPosts :=
  ⟨by decide, fun l h => listAllPosts_perm_eq l repoPosts h (by decide)⟩

/-- Witness for C10: a concrete re-enumeration of the repository collection
yields the same listing. -/
theorem repo_order_enumeration_independent_witness :
    listAllPosts [modernWebPost, gettingStartedPost, typescriptPost] =
      listAllPosts repoPosts :=
  repo_order_enumeration_independent.2 _
    (List.Perm.swap gettingStartedPost modernWebPost [typescriptPost])

/-! ## Slug lookup -/

theorem getPostBySlug_ok_iff (posts : List BlogPost) (s : String)
    (hnd : (posts.map BlogPost.slug).Nodup) (p : BlogPost) :
    getPostBySlug posts s = .ok p ↔ (p ∈ posts ∧ p.slug = s) := by
  induction posts with
  | nil => simp [getPostBySlug]
  | cons q qs ih =>
    rw [List.map_cons] at hnd
    rcases List.nodup_cons.1 hnd with ⟨hq, hqs⟩
    simp only [getPostBySlug]
    by_cases h : q.slug = s
    · simp only [if_pos h]
      constructor
      · intro hok
        have : q = p := by injection hok
        subst this
        exact ⟨List.mem_cons_self _ _, h⟩
      · rintro ⟨hmem, hps⟩
        rcases List.mem_cons.1 hmem with rfl | hmem'
        · rfl
        · have : q.slug ∈ List.map BlogPost.slug qs := by
            rw [h, ← hps]
            exact List.mem_map_of_mem BlogPost.slug hmem'
          exact absurd this hq
    · simp only [if_neg h]
      rw [ih hqs]
      constructor
      · rintro ⟨hmem, hps⟩
        exact ⟨List.mem_cons_of_mem _ hmem, hps⟩
      · rintro ⟨hmem, hps⟩
        rcases List.mem_cons.1 hmem with rfl | hmem'
        · exact absurd hps h
        · exact ⟨hmem', hps⟩

theorem getPostBySlug_err_iff (posts : List BlogPost) (s : String) :
    getPostBySlug posts s = .error (.notFound s) ↔ ∀ p ∈ posts, p.slug ≠ s := by
  induction posts with
  | nil => simp [getPostBySlug]
  | cons q qs ih =>
    simp only [getPostBySlug]
    by_cases h : q.slug = s
    · simp [if_pos h, h]
    · simp only [if_neg h, ih, List.mem_cons]
      constructor
      · intro hall p hp
        rcases hp with rfl | hp'
        · exact h
        · exact hall p hp'
      · intro hall p hp
        exact hall p (Or.inr hp)

/-- C2: over any post set with unique slugs, `getPostBySlug s` returns
exactly the entry whose derived slug equals `s` when one exists, and
`NotFoundError` for every slug with no corresponding entry; and the loader's
error type has only schema and duplicate-slug constructors, so
`NotFoundError` arises from `getPostBySlug` and from no other operation. -/
theorem getPostBySlug_spec (posts : List BlogPost) (s : String)
    (hnd : (posts.map BlogPost.slug).Nodup) :
    (∀ p : BlogPost, getPostBySlug posts s = .ok p ↔ (p ∈ posts ∧ p.slug = s)) ∧
    (getPostBySlug posts s = .error (.notFound s) ↔ ∀ p ∈ posts, p.slug ≠ s) ∧
    (∀ docs : List Document, ∀ e : LoadError, loadDocs docs = .error e →
      (∃ dp f, e = .schema dp f) ∨ (∃ p1 p2, e = .dupSlug p1 p2)) := by
  refine ⟨fun p => getPostBySlug_ok_iff posts s hnd p,
    getPostBySlug_err_iff posts s, ?_⟩
  intro docs e _
  cases e with
  | schema dp f => exact Or.inl ⟨dp, f, rfl⟩
  | dupSlug p1 p2 => exact Or.inr ⟨p1, p2, rfl⟩

/-- Witness for C2: looking up `modern-web-applications` in the repository's
post set returns exactly that post. -/
theorem getPostBySlug_spec_witness :
    getPostBySlug repoPosts "modern-web-applications" = .ok modernWebPost :=
  ((getPostBySlug_spec repoPosts "modern-web-applications" (by decide)).1
      modernWebPost).mpr
    ⟨List.mem_cons_of_mem _ (List.mem_cons_self _ _), rfl⟩

/-! ## Schema-validation characterization -/

theorem tagsPart_ok (d : Document) (t ds : String) (pd : Date) (h : Option String) :
    exceptOk (tagsPart d t ds pd h) = tagsOK d := by
  unfold tagsPart tagsOK
  rcases fmLookup d.fm "tags" with _ | (s | vs)
  · rfl
  · rfl
  · simp only
    cases asStrList vs <;> simp [exceptOk]

theorem tagsPart_err (d : Document) (t ds : String) (h : Option String) (pd : Date)
    (e : LoadError) (he : tagsPart d t ds pd h = .error e) :
    e = .schema d.path "tags" ∧ tagsOK d = false := by
  unfold tagsPart at he
  unfold tagsOK
  rcases hl : fmLookup d.fm "tags" with _ | (s | vs) <;> rw [hl] at he <;> simp only at he ⊢
  · exact absurd he (by simp)
  · injection he with he'
    exact ⟨he'.symm, trivial⟩
  · cases hs : asStrList vs with
    | none =>
      rw [hs] at he
      injection he with he'
      simp [he'.symm, hs]
    | some ts =>
      rw [hs] at he
      exact absurd he (by simp)

theorem validateDoc_ok_iff_schemaOK (d : Document) :
    exceptOk (validateDoc d) = schemaOK d := by
  unfold validateDoc schemaOK titleOK descOK dateFieldOK heroOK
  rcases fmLookup d.fm "title" with _ | (t | vs1)
  · rfl
  · simp only
    rcases fmLookup d.fm "description" with _ | (ds | vs2)
    · rfl
    · simp only
      rcases fmLookup d.fm "pubDate" with _ | (ps | vs3)
      · rfl
      · simp only
        cases parseDate ps with
        | none => rfl
        | some pd =>
          simp only [Option.isSome_some, Bool.true_and]
          rcases fmLookup d.fm "heroImage" with _ | (hh | vs4)
          · simpa using tagsPart_ok d t ds pd none
          · simpa using tagsPart_ok d t ds pd (some hh)
          · rfl
      · rfl
    · rfl
  · rfl

theorem validateDoc_err_named (d : Document) (e : LoadError)
    (he : validateDoc d = .error e) :
    ∃ f : String, e = .schema d.path f ∧ fieldBad d f = true := by
  unfold validateDoc at he
  rcases h1 : fmLookup d.fm "title" with _ | (t | vs1) <;> rw [h1] at he
  · refine ⟨"title", by injection he with h; exact h.symm, ?_⟩
    simp [fieldBad, titleOK, h1]
  · simp only at he
    rcases h2 : fmLookup d.fm "description" with _ | (ds | vs2) <;> rw [h2] at he
    · refine ⟨"description", by injection he with h; exact h.symm, ?_⟩
      simp [fieldBad, descOK, h2]
    · simp only at he
      rcases h3 : fmLookup d.fm "pubDate" with _ | (ps | vs3) <;> rw [h3] at he
      · refine ⟨"pubDate", by injection he with h; exact h.symm, ?_⟩
        simp [fieldBad, dateFieldOK, h3]
      · simp only at he
        cases h4 : parseDate ps with
        | none =>
          rw [h4] at he
          refine ⟨"pubDate", by injection he with h; exact h.symm, ?_⟩
          simp [fieldBad, dateFieldOK, h3, h4]
        | some pd =>
          rw [h4] at he
          rcases h5 : fmLookup d.fm "heroImage" with _ | (hh | vs4) <;> rw [h5] at he
          · obtain ⟨hfe, hfb⟩ := tagsPart_err d t ds none pd e he
            exact ⟨"tags", hfe, by simp [fieldBad, hfb]⟩
          · obtain ⟨hfe, hfb⟩ := tagsPart_err d t ds (some hh) pd e he
            exact ⟨"tags", hfe, by simp [fieldBad, hfb]⟩
          · refine ⟨"heroImage", by injection he with h; exact h.symm, ?_⟩
            simp [fieldBad, heroOK, h5]
      · refine ⟨"pubDate", by injection he with h; exact h.symm, ?_⟩
        simp [fieldBad, dateFieldOK, h3]
    · refine ⟨"description", by injection he with h; exact h.symm, ?_⟩
      simp [fieldBad, descOK, h2]
  · refine ⟨"title", by injection he with h; exact h.symm, ?_⟩
    simp [fieldBad, titleOK, h1]

/-- C3: per-document loading fails with `SchemaValidationError` exactly when
a required front-matter field (`title`, `description`, `pubDate`) is missing
or a field's value does not match its declared type, the raised error names
the document and an offending field, and in particular a document missing
`title` fails naming `title` and a document with `pubDate: "not-a-date"`
fails naming `pubDate`. -/
theorem schema_validation_spec :
    (∀ d : Document, exceptOk (validateDoc d) = schemaOK d) ∧
    (∀ d : Document, ∀ e : LoadError, validateDoc d = .error e →
      ∃ f : String, e = .schema d.path f ∧ fieldBad d f = true) ∧
    validateDoc docMissingTitle = .error (.schema "missing-title.md" "title") ∧
    validateDoc docBadDate = .error (.schema "bad-date.md" "pubDate") :=
  ⟨validateDoc_ok_iff_schemaOK, validateDoc_err_named, rfl, rfl⟩

/-- Witness for C3: the unparseable-date fixture's error is named after its
path and an offending field. -/
theorem schema_validation_spec_witness :
    ∃ f : String, LoadError.schema "bad-date.md" "pubDate" =
      .schema docBadDate.path f ∧ fieldBad docBadDate f = true :=
  schema_validation_spec.2.1 docBadDate (.schema "bad-date.md" "pubDate") rfl

/-- C7: a document whose front-matter omits `tags` (all other fields
satisfying the schema) loads successfully, and the resulting BlogPost has
`tags` equal to the empty sequence. -/
theorem omitted_tags_defaults_empty (d : Document)
    (hnone : fmLookup d.fm "tags" = none)
    (ht : titleOK d = true) (hd : descOK d = true)
    (hpd : dateFieldOK d = true) (hh : heroOK d = true) :
    ∃ p : BlogPost, validateDoc d = .ok p ∧ p.tags = [] := by
  unfold titleOK at ht
  unfold descOK at hd
  unfold dateFieldOK at hpd
  unfold heroOK at hh
  unfold validateDoc
  rcases h1 : fmLookup d.fm "title" with _ | (t | vs1) <;> rw [h1] at ht
  · exact absurd ht (by simp)
  · simp only
    rcases h2 : fmLookup d.fm "description" with _ | (ds | vs2) <;> rw [h2] at hd
    · exact absurd hd (by simp)
    · simp only
      rcases h3 : fmLookup d.fm "pubDate" with _ | (ps | vs3) <;> rw [h3] at hpd
      · exact absurd hpd (by simp)
      · simp only
        simp only at hpd
        cases h4 : parseDate ps with
        | none => rw [h4] at hpd; exact absurd hpd (by simp)
        | some pd =>
          rcases h5 : fmLookup d.fm "heroImage" with _ | (hhh | vs4) <;> rw [h5] at hh
          · exact ⟨_, by unfold tagsPart; rw [hnone], rfl⟩
          · exact ⟨_, by unfold tagsPart; rw [hnone], rfl⟩
          · exact absurd hh (by simp)
      · exact absurd hpd (by simp)
    · exact absurd hd (by simp)
  · exact absurd ht (by simp)

/-- Witness for C7: the no-`tags` fixture loads with an empty tag list. -/
theorem omitted_tags_defaults_empty_witness :
    ∃ p : BlogPost, validateDoc docNoTags = .ok p ∧ p.tags = [] :=
  omitted_tags_defaults_empty docNoTags rfl rfl rfl rfl rfl

/-! ## Duplicate-slug detection -/

theorem lookupSlug_eq_some (seen : List (String × String)) (s p : String)
    (h : lookupSlug seen s = some p) : ∃ sp ∈ seen, sp.1 = s ∧ sp.2 = p := by
  induction seen with
  | nil => exact absurd h (by simp [lookupSlug])
  | cons sp rest ih =>
    by_cases hh : sp.1 = s
    · rw [lookupSlug, if_pos hh] at h
      injection h with h'
      exact ⟨sp, List.mem_cons_self _ _, hh, h'⟩
    · rw [lookupSlug, if_neg hh] at h
      obtain ⟨sq, hmem, h1, h2⟩ := ih h
      exact ⟨sq, List.mem_cons_of_mem _ hmem, h1, h2⟩

theorem findDup_none (docs : List Document) :
    ∀ seen : List (String × String), findDup seen docs = none →
      (docs.map (fun d => slugOf d.path)).Nodup ∧
      ∀ s ∈ docs.map (fun d => slugOf d.path), lookupSlug seen s = none := by
  induction docs with
  | nil =>
    intro seen _
    simp
  | cons d ds ih =>
    intro seen h
    unfold findDup at h
    cases hl : lookupSlug seen (slugOf d.path) with
    | some p => rw [hl] at h; exact absurd h (by simp)
    | none =>
      rw [hl] at h
      obtain ⟨hnd, hall⟩ := ih _ h
      have hd : slugOf d.path ∉ ds.map (fun d => slugOf d.path) := by
        intro hmem
        have hcontra := hall _ hmem
        rw [lookupSlug, if_pos rfl] at hcontra
        exact absurd hcontra (by simp)
      refine ⟨List.nodup_cons.2 ⟨hd, hnd⟩, ?_⟩
      intro s hs
      rw [List.map_cons] at hs
      rcases List.mem_cons.1 hs with rfl | hs'
      · exact hl
      · have hrec := hall _ hs'
        by_cases he : slugOf d.path = s
        · rw [lookupSlug, if_pos he] at hrec
          exact absurd hrec (by simp)
        · rwa [lookupSlug, if_neg he] at hrec

theorem findDup_some (docs : List Document) :
    ∀ seen : List (String × String), (∀ sp ∈ seen, sp.1 = slugOf sp.2) →
    ∀ p q : String, findDup seen docs = some (p, q) →
      slugOf p = slugOf q ∧ q ∈ docs.map Document.path ∧
      (p ∈ docs.map Document.path ∨ ∃ sp ∈ seen, sp.2 = p) := by
  induction docs with
  | nil =>
    intro seen _ p q h
    exact absurd h (by simp [findDup])
  | cons d ds ih =>
    intro seen hinv p q h
    unfold findDup at h
    cases hl : lookupSlug seen (slugOf d.path) with
    | some r =>
      rw [hl] at h
      injection h with h'
      injection h' with hp hq
      subst hp
      subst hq
      obtain ⟨sp, hmem, h1, h2⟩ := lookupSlug_eq_some _ _ _ hl
      refine ⟨?_, by simp, Or.inr ⟨sp, hmem, h2⟩⟩
      rw [← h2, ← hinv sp hmem, h1]
    | none =>
      rw [hl] at h
      have hinv' : ∀ sp ∈ ((slugOf d.path, d.path) :: seen), sp.1 = slugOf sp.2 := by
        intro sp hsp
        rcases List.mem_cons.1 hsp with rfl | hsp'
        · rfl
        · exact hinv sp hsp'
      obtain ⟨hs, hq, hp⟩ := ih _ hinv' p q h
      refine ⟨hs, by simp [List.mem_cons]; right; simpa using hq, ?_⟩
      rcases hp with hp | ⟨sp, hsp, hsp2⟩
      · exact Or.inl (by simp [List.mem_cons]; right; simpa using hp)
      · rcases List.mem_cons.1 hsp with rfl | hsp'
        · exact Or.inl (by simp [← hsp2])
        · exact Or.inr ⟨sp, hsp', hsp2⟩

/-- C4: whenever two input documents' source filenames normalize to the same
derived slug (lowercased, extension stripped, path separators preserved),
loading fails with `DuplicateSlugError` reporting two colliding file paths
from the input, and the build produces no partial output (the loader's
result is the error alone). -/
theorem duplicate_slug_aborts (docs : List Document)
    (hdup : ¬ (docs.map (fun d => slugOf d.path)).Nodup) :
    ∃ p q : String, loadDocs docs = .error (.dupSlug p q) ∧
      slugOf p = slugOf q ∧ p ∈ docs.map Document.path ∧
      q ∈ docs.map Document.path := by
  cases hf : findDup [] docs with
  | none => exact absurd (findDup_none docs [] hf).1 hdup
  | some pq =>
    obtain ⟨p, q⟩ := pq
    obtain ⟨hs, hq, hp⟩ := findDup_some docs [] (by simp) p q hf
    rcases hp with hp | ⟨sp, hsp, _⟩
    · exact ⟨p, q, by rw [loadDocs, hf], hs, hp, hq⟩
    · exact absurd hsp (by simp)

/-- Witness for C4: loading `My-Post.md` together with `my-post.md` fails
with a duplicate-slug error reporting both paths. -/
theorem duplicate_slug_aborts_witness :
    ∃ p q : String, loadDocs [myPostDocA, myPostDocB] = .error (.dupSlug p q) ∧
      slugOf p = slugOf q ∧ p ∈ [myPostDocA, myPostDocB].map Document.path ∧
      q ∈ [myPostDocA, myPostDocB].map Document.path :=
  duplicate_slug_aborts [myPostDocA, myPostDocB] (by decide)

/-- C9: loading the repository's actual content succeeds without error —
the three documents validate against the schema (so no
`SchemaValidationError` arises), their filenames derive pairwise-distinct
slugs (so no `DuplicateSlugError` arises), and every tag of every resulting
post is a non-empty string. -/
theorem repo_load_succeeds :
    loadDocs repoDocs = .ok repoPosts ∧
    (repoPosts.map BlogPost.slug).Nodup ∧
    repoPosts.all (fun p => p.tags.all (fun t => !t.isEmpty)) = true :=
  ⟨rfl, by decide, by decide⟩

/-! ## Site configuration -/

/-- C6: the SiteConfig singleton built from the repository's constants in
`src/consts.ts` validates successfully: all seven fields are non-empty and
`url`, `githubUrl`, `linkedinUrl` are well-formed absolute URLs.  (The store
is a constant of the embedding, so it cannot be mutated after
construction.) -/
theorem siteConfig_invariant :
    mkSiteConfig SITE_TITLE SITE_DESCRIPTION SITE_URL SITE_AUTHOR SITE_EMAIL
      SITE_GITHUB SITE_LINKEDIN = .ok siteConfig ∧
    siteConfig.title.isEmpty = false ∧
    siteConfig.description.isEmpty = false ∧
    siteConfig.url.isEmpty = false ∧
    siteConfig.author.isEmpty = false ∧
    siteConfig.email.isEmpty = false ∧
    siteConfig.githubUrl.isEmpty = false ∧
    siteConfig.linkedinUrl.isEmpty = false ∧
    isAbsoluteUrl siteConfig.url = true ∧
    isAbsoluteUrl siteConfig.githubUrl = true ∧
    isAbsoluteUrl siteConfig.linkedinUrl = true :=
  ⟨rfl, rfl, rfl, rfl, rfl, rfl, rfl, rfl, rfl, rfl, rfl⟩

/-- C8: constructing the Site Configuration Store succeeds exactly when
every required field is non-empty and every URL field is a well-formed
absolute URL; and a build whose `author` field is empty aborts with
`ConfigValidationError` naming `author` before any post is loaded — for
every document list, including ones that would themselves fail to load. -/
theorem config_validation_fails_fast :
    (∀ t d u a e g l : String,
      exceptOk (mkSiteConfig t d u a e g l) =
        (!t.isEmpty && !d.isEmpty && isAbsoluteUrl u && !a.isEmpty &&
         !e.isEmpty && isAbsoluteUrl g && isAbsoluteUrl l)) ∧
    (∀ docs : List Document,
      buildSite SITE_TITLE SITE_DESCRIPTION SITE_URL "" SITE_EMAIL SITE_GITHUB
        SITE_LINKEDIN docs = .error (.config "author")) := by
  constructor
  · intro t d u a e g l
    unfold mkSiteConfig
    split_ifs <;> simp_all [exceptOk]
  · intro docs
    rfl

end Blog
